import Mathlib

/-
Verification development for the Moodle completion-report tool
(moodle_course_status-specific.py).  The script is shallowly embedded:
parsed JSON payloads become the inductive type `Json`, Python dicts become
association lists with Python's update-in-place insertion semantics, the
network is a parameter (per-attempt HTTP outcomes, per-user call results),
and `print` output is returned as a log of strings.
-/

namespace MoodleReport

/-- Parsed JSON values as the Python script sees them after r.json(). -/
inductive Json where
  | null
  | bool (b : Bool)
  | num (n : Int)
  | str (s : String)
  | arr (xs : List Json)
  | obj (fields : List (String × Json))

/-- Python truthiness of a JSON value (None, False, 0, empty string,
empty list and empty dict are falsy). -/
def Json.truthy : Json → Bool
  | .null => false
  | .bool b => b
  | .num n => n != 0
  | .str s => s != ""
  | .arr xs => !xs.isEmpty
  | .obj fs => !fs.isEmpty

/-- d.get(key) on a parsed JSON object; none when the value is not a dict
or the key is absent. -/
def Json.dictGet : Json → String → Option Json
  | .obj fs, k => fs.lookup k
  | _, _ => none

/-- Python == between two hashable JSON values used as dict keys:
numbers and booleans compare by numeric value (True == 1), strings and
None structurally; lists and dicts are unhashable and never occur as keys. -/
def pyEqKey : Json → Json → Bool
  | .num a, .num b => a == b
  | .num a, .bool b => a == (if b then (1 : Int) else 0)
  | .bool a, .num b => (if a then (1 : Int) else 0) == b
  | .bool a, .bool b => a == b
  | .str a, .str b => a == b
  | .null, .null => true
  | _, _ => false

/-- Whether a JSON value may be used as a Python dict key. -/
def Json.pyHashable : Json → Bool
  | .arr _ => false
  | .obj _ => false
  | _ => true

/-- Python str() of a non-negative integer, digit characters accumulated
with explicit fuel so the definition is structural. -/
def natDigitsAux : Nat → Nat → List Char → List Char
  | 0, _, acc => acc
  | fuel + 1, n, acc =>
    if n < 10 then Char.ofNat (48 + n) :: acc
    else natDigitsAux fuel (n / 10) (Char.ofNat (48 + n % 10) :: acc)

/-- Python str() of a natural number (decimal rendering). -/
def pyStrOfNat (n : Nat) : String := ⟨natDigitsAux (n + 1) n []⟩

/-- Python str() of an integer (decimal rendering, minus sign). -/
def pyStrOfInt (i : Int) : String :=
  if i < 0 then ⟨'-' :: (pyStrOfNat i.natAbs).data⟩ else pyStrOfNat i.natAbs

/-- Python str.lower() restricted to the ASCII fragment: each character
in A..Z is shifted to its lowercase form. -/
def pyLower (s : String) : String := ⟨s.data.map Char.toLower⟩

/-- Python str.capitalize(): first character uppercased, the rest
lowercased. -/
def pyCapitalize (s : String) : String :=
  match s.data with
  | [] => ""
  | c :: rest => ⟨Char.toUpper c :: rest.map Char.toLower⟩

/-- Python str() of a JSON value, as far as the script renders them
inside messages. -/
def Json.pyStr : Json → String
  | .null => "None"
  | .bool b => if b then "True" else "False"
  | .num n => pyStrOfInt n
  | .str s => s
  | .arr _ => "<list>"
  | .obj _ => "<dict>"

/-! Settings block of the script. -/

def DEFAULT_MAX_THREADS : Nat := 8
def REQUEST_TIMEOUT : Nat := 60
def RETRY_COUNT : Nat := 3
def RETRY_SLEEP_SECONDS : ℚ := 1.5

/-! Remote call wrapper: call_moodle.  One HTTP attempt either fails at
the transport (requests.post raises), has an error status
(r.raise_for_status raises for 4xx/5xx), carries an application error
(a dict payload with a truthy "exception" field), or returns the parsed
data. -/

/-- Outcome of one HTTP POST to the Moodle endpoint. -/
inductive HttpResult where
  | netErr (msg : String)
  | resp (status : Nat) (body : Json)

/-- requests raise_for_status: raises exactly for status codes 400-599. -/
def raise_for_status (status : Nat) : Except String Unit :=
  if 400 ≤ status ∧ status < 600 then
    .error ("HTTP error " ++ pyStrOfNat status)
  else .ok ()

/-- The RuntimeError message built for an application-level Moodle error. -/
def moodleExcMsg (fields : List (String × Json)) : String :=
  "Moodle exception: " ++ ((fields.lookup "message").getD .null).pyStr
    ++ " | " ++ ((fields.lookup "errorcode").getD .null).pyStr

/-- The body of one attempt of call_moodle: post, raise_for_status,
parse, raise on an "exception" field, otherwise return the data. -/
def attemptOutcome : HttpResult → Except String Json
  | .netErr m => .error m
  | .resp status body =>
    match raise_for_status status with
    | .error e => .error e
    | .ok _ =>
      match body with
      | .obj fields =>
        if ((fields.lookup "exception").getD .null).truthy then
          .error (moodleExcMsg fields)
        else .ok (.obj fields)
      | _ => .ok body

/-- The retry loop of call_moodle over the remaining attempt indices
(range(1, RETRY_COUNT + 1) in the script).  Returns the final outcome
together with the list of sleep durations performed, in order. -/
def call_moodle_go (f : Nat → Except String Json) :
    List Nat → Except String Json × List ℚ
  | [] => (.ok .null, [])
  | attempt :: rest =>
    match f attempt with
    | .ok d => (.ok d, [])
    | .error e =>
      if attempt = RETRY_COUNT then (.error e, [])
      else
        let p := call_moodle_go f rest
        (p.1, RETRY_SLEEP_SECONDS * (attempt : ℚ) :: p.2)

/-- call_moodle with the per-attempt outcomes as a parameter: result of
the call plus the sleeps performed between attempts. -/
def call_moodle (f : Nat → Except String Json) : Except String Json × List ℚ :=
  call_moodle_go f (List.range' 1 RETRY_COUNT)

/-! Sheet-name sanitization. -/

/-- Character class kept by re.sub(r'[^A-Za-z0-9]', '', name). -/
def isSheetChar (c : Char) : Bool :=
  ('A' ≤ c && c ≤ 'Z') || ('a' ≤ c && c ≤ 'z') || ('0' ≤ c && c ≤ '9')

/-- sanitize_sheet_name: keep only ASCII letters and digits, then
truncate to 31 characters. -/
def sanitize_sheet_name (name : String) : String :=
  ⟨(name.data.filter isSheetChar).take 31⟩

/-- Sheet title as computed at the workbook-writing site:
sanitize_sheet_name(cshort) or "Course". -/
def sheet_title (cshort : String) : String :=
  let s := sanitize_sheet_name cshort
  if s = "" then "Course" else s

/-! Courses. -/

/-- A course record as used by the script. -/
structure Course where
  id : Int
  fullname : String
  shortname : String
  categoryid : Int
deriving DecidableEq, Repr

/-- get_all_courses, with the fetched course list as a parameter:
when a non-empty filter list is given, keep the courses whose id
rendered by str() or whose lowercased full name occurs in the
lowercased filter list. -/
def get_all_courses (courses : List Course)
    (specific_courses : Option (List String)) : List Course :=
  match specific_courses with
  | some sc =>
    if sc.isEmpty then courses
    else
      let specific_lower := sc.map pyLower
      courses.filter (fun c =>
        specific_lower.contains (pyStrOfInt c.id)
          || specific_lower.contains (pyLower c.fullname))
  | none => courses

/-! Completion queries.  Each is parameterized on the result of its
underlying call_moodle invocation (ok with the parsed JSON, or error when
the wrapper exhausted its retries and raised). -/

/-- get_course_completion: on a failed call, or a response without a
completionstatus dict, (0, "N/A"); otherwise (100, "Completed") or
(0, "Incomplete") by the truthiness of the completed field. -/
def get_course_completion (callResult : Except String Json) : Int × String :=
  match callResult with
  | .error _ => (0, "N/A")
  | .ok resp =>
    match resp with
    | .obj fields =>
      match fields.lookup "completionstatus" with
      | some cs =>
        match cs with
        | .obj csf =>
          let completed := (csf.lookup "completed").getD .null
          if completed.truthy then (100, "Completed") else (0, "Incomplete")
        | _ => (0, "N/A")
      | none => (0, "N/A")
    | _ => (0, "N/A")

/-- The label computed for one statuses entry from its state field
(state in (1, 2) under Python equality, state == 3, otherwise). -/
def statusOfState (state : Json) : String :=
  if pyEqKey state (.num 1) || pyEqKey state (.num 2) then "Completed"
  else if pyEqKey state (.num 3) then "Failed"
  else "Incomplete"

/-- Python dict assignment out[k] = v on an association list of JSON
keys: the value of every pair whose key compares equal to k is updated
in place, otherwise the pair (k, v) is appended. -/
def amapInsert (m : List (Json × String)) (k : Json) (v : String) :
    List (Json × String) :=
  if m.any (fun p => pyEqKey p.1 k) then
    m.map (fun p => if pyEqKey p.1 k then (p.1, v) else p)
  else m ++ [(k, v)]

/-- Python dict lookup on an association list of JSON keys. -/
def amapFind (m : List (Json × String)) (k : Json) : Option (Json × String) :=
  m.find? (fun p => pyEqKey p.1 k)

/-- Python m.get(k, dflt) on an association list of JSON keys. -/
def amapGet (m : List (Json × String)) (k : Json) (dflt : String) : String :=
  match amapFind m k with
  | some p => p.2
  | none => dflt

/-- The loop of get_activity_completion over the statuses entries:
each dict entry contributes out[cmid] = label; a non-dict entry, or an
unhashable cmid, raises inside the try and the map built so far is
returned. -/
def activityStatusesLoop : List Json → List (Json × String) → List (Json × String)
  | [], out => out
  | s :: rest, out =>
    match s with
    | .obj _ =>
      let cmid := (s.dictGet "cmid").getD .null
      let state := (s.dictGet "state").getD (.num 0)
      if cmid.pyHashable then
        activityStatusesLoop rest (amapInsert out cmid (statusOfState state))
      else out
    | _ => out

/-- get_activity_completion: empty map when the call failed, when the
response is not a dict, or when the statuses field is not a list;
otherwise the map built by the loop. -/
def get_activity_completion (callResult : Except String Json) :
    List (Json × String) :=
  match callResult with
  | .error _ => []
  | .ok data =>
    match data with
    | .obj fields =>
      match fields.lookup "statuses" with
      | some (.arr statuses) => activityStatusesLoop statuses []
      | some _ => []
      | none => []
    | _ => []

/-! Users and the per-course aggregator. -/

/-- One role assignment of an enrolled user; absent fields are none. -/
structure Role where
  roleid : Option Int
  name : Option String
deriving DecidableEq, Repr

/-- One custom profile field; an absent or empty shortname is modelled
as the empty string (both are falsy in the script's key choice). -/
structure CustomField where
  shortname : String
  name : String
  value : String
deriving DecidableEq, Repr

/-- An enrolled user as the script reads it from the users payload. -/
structure User where
  id : Int
  fullname : String
  username : String
  email : String
  department : String
  institution : String
  city : String
  country : String
  lastaccess : Option Nat
  roles : List Role
  customfields : List CustomField
deriving DecidableEq, Repr

/-- role_names: comma-joined role names, each defaulting to str(roleid)
and then to the empty string. -/
def role_names (u : User) : String :=
  String.intercalate ", " (u.roles.map (fun r =>
    r.name.getD (match r.roleid with
      | some i => pyStrOfInt i
      | none => "")))

/-- last_access_str with the local-time formatter as a parameter: empty
when lastaccess is absent or 0 (falsy), otherwise the formatted stamp. -/
def last_access_str (fmtTime : Nat → String) (u : User) : String :=
  match u.lastaccess with
  | some ts => if ts = 0 then "" else fmtTime ts
  | none => ""

/-- Cell values appearing in rows: the script stores Python ints and
strings. -/
inductive CellVal where
  | int (i : Int)
  | str (s : String)
deriving DecidableEq, Repr

/-- Python dict assignment row[k] = v on a string-keyed association
list: update in place or append. -/
def pyDictInsert (row : List (String × CellVal)) (k : String) (v : CellVal) :
    List (String × CellVal) :=
  if row.any (fun p => p.1 = k) then
    row.map (fun p => if p.1 = k then (p.1, v) else p)
  else row ++ [(k, v)]

/-- Python dict.update / the ** spread: insert every pair in order. -/
def pyDictUpdate (row : List (String × CellVal))
    (kvs : List (String × CellVal)) : List (String × CellVal) :=
  kvs.foldl (fun r p => pyDictInsert r p.1 p.2) row

/-- Python row.get(k) on a string-keyed association list. -/
def rowGet (row : List (String × CellVal)) (k : String) : Option CellVal :=
  (row.find? (fun p => p.1 = k)).map (fun p => p.2)

/-- flatten_custom_fields: key is shortname or name (first truthy),
value the field value. -/
def flatten_custom_fields (u : User) : List (String × CellVal) :=
  u.customfields.foldl (fun d f =>
    let key := if f.shortname ≠ "" then f.shortname else f.name
    pyDictInsert d key (.str f.value)) []

/-! Activities. -/

/-- The name/modname pair stored per course module id. -/
structure ModuleMeta where
  name : String
  modname : String
deriving DecidableEq, Repr

/-- One course module from core_course_get_contents; the two Bool
fields hold the values of mod.get("uservisible", True) and
mod.get("deletioninprogress", False). -/
structure Module where
  id : Int
  name : String
  modname : String
  uservisible : Bool
  deletioninprogress : Bool
deriving DecidableEq, Repr

/-- One section of the course contents payload. -/
structure CourseSection where
  modules : List Module
deriving DecidableEq, Repr

/-- Python dict assignment on the int-keyed activities map. -/
def imapInsert (m : List (Int × ModuleMeta)) (k : Int) (v : ModuleMeta) :
    List (Int × ModuleMeta) :=
  if m.any (fun p => p.1 = k) then
    m.map (fun p => if p.1 = k then (p.1, v) else p)
  else m ++ [(k, v)]

/-- The dict built by get_course_activities from the sections: keep a
module when it is uservisible and not deletioninprogress. -/
def section_activities (sections : List CourseSection) :
    List (Int × ModuleMeta) :=
  sections.foldl (fun acc sec =>
    sec.modules.foldl (fun acc m =>
      if m.uservisible && !m.deletioninprogress then
        imapInsert acc m.id ⟨m.name, m.modname⟩
      else acc) acc) []

/-- get_course_activities: the underlying core_course_get_contents call
either raises (propagated unchanged) or yields the sections. -/
def get_course_activities (contents : Except String (List CourseSection)) :
    Except String (List (Int × ModuleMeta)) :=
  match contents with
  | .error e => .error e
  | .ok sections => .ok (section_activities sections)

/-- Ordered (cmid, column name) pairs; the column name is the
capitalized modname, a colon and the activity name. -/
def activity_columns_of (activities : List (Int × ModuleMeta)) :
    List (Int × String) :=
  activities.map (fun p => (p.1, pyCapitalize p.2.modname ++ ": " ++ p.2.name))

/-- Network behaviour seen by one course task: contents and enrolled
users fetch results, the two completion-call results per user id, and
the local-time formatter used for Last Access cells. -/
structure CourseEnv where
  contents : Except String (List CourseSection)
  users : Except String (List User)
  completionCall : Int → Except String Json
  activityCall : Int → Except String Json
  fmtTime : Nat → String

/-- The base_user dict of process_one_course: standard fields, then the
custom fields merged in (overwriting on key collision). -/
def base_user_row (fmtTime : Nat → String) (u : User) :
    List (String × CellVal) :=
  pyDictUpdate [
    ("User ID", .int u.id),
    ("Full Name", .str u.fullname),
    ("Username", .str u.username),
    ("Email", .str u.email),
    ("Department", .str u.department),
    ("Institution", .str u.institution),
    ("City", .str u.city),
    ("Country", .str u.country),
    ("Last Access", .str (last_access_str fmtTime u)),
    ("Role(s)", .str (role_names u))
  ] (flatten_custom_fields u)

/-- The per-course detail row for one user: course fields, base_user
spread in, the two completion cells, then one cell per activity column
defaulting to "Incomplete" when the cmid is absent from a_map. -/
def course_row (c : Course) (fmtTime : Nat → String) (u : User)
    (c_pct : Int) (c_status : String) (a_map : List (Json × String))
    (activity_columns : List (Int × String)) : List (String × CellVal) :=
  let r0 := pyDictUpdate [
    ("Course ID", .int c.id),
    ("Course Name", .str c.fullname),
    ("Course Shortname", .str c.shortname)] (base_user_row fmtTime u)
  let r1 := pyDictUpdate r0 [
    ("Course Completion Status", .str c_status),
    ("Completion %", .int c_pct)]
  activity_columns.foldl (fun r p =>
    pyDictInsert r p.2 (.str (amapGet a_map (.num p.1) "Incomplete"))) r1

/-- The consolidated row for one user (fixed 10 columns, Manager left
blank). -/
def consolidated_row (c : Course) (fmtTime : Nat → String) (u : User)
    (c_pct : Int) (c_status : String) : List CellVal :=
  [.int u.id, .str u.fullname, .str "", .str u.email, .int c.id,
   .str c.fullname, .str (last_access_str fmtTime u), .str (role_names u),
   .int c_pct, .str c_status]

/-- The enrollment row for one user. -/
def enrollment_row (c : Course) (fmtTime : Nat → String) (u : User) :
    List (String × CellVal) :=
  [("User ID", .int u.id), ("Full Name", .str u.fullname),
   ("Username", .str u.username), ("Email", .str u.email),
   ("Course ID", .int c.id), ("Course Name", .str c.fullname),
   ("Course Shortname", .str c.shortname), ("Role(s)", .str (role_names u)),
   ("Last Access", .str (last_access_str fmtTime u))]

/-- The loop body of process_one_course for one user: fetch the two
completion results and build the three row shapes. -/
def user_rows (c : Course) (env : CourseEnv)
    (activity_columns : List (Int × String)) (u : User) :
    List (String × CellVal) × List CellVal × List (String × CellVal) :=
  let pc := get_course_completion (env.completionCall u.id)
  let a_map := get_activity_completion (env.activityCall u.id)
  (course_row c env.fmtTime u pc.1 pc.2 a_map activity_columns,
   consolidated_row c env.fmtTime u pc.1 pc.2,
   enrollment_row c env.fmtTime u)

/-- The four components returned by process_one_course. -/
structure CourseResult where
  per_course_rows : List (List (String × CellVal))
  consolidated_rows : List (List CellVal)
  enrollment_rows : List (List (String × CellVal))
  act_cols : List String

/-- process_one_course: print, fetch activities (a failure here is NOT
caught and propagates), fetch users (a failure here is caught, printed
and converted to empty row sets), otherwise build the rows per user.
The second component is the log of printed lines. -/
def process_one_course (c : Course) (env : CourseEnv) :
    Except String CourseResult × List String :=
  let log0 := ["Processing course: " ++ c.fullname ++ " (ID="
    ++ pyStrOfInt c.id ++ ")"]
  match get_course_activities env.contents with
  | .error e => (.error e, log0)
  | .ok activities =>
    let activity_columns := activity_columns_of activities
    match env.users with
    | .error e =>
      (.ok ⟨[], [], [], activity_columns.map Prod.snd⟩,
       log0 ++ ["  ❌ Failed to get users for course " ++ c.fullname
         ++ ": " ++ e])
    | .ok users =>
      let rows := users.map (user_rows c env activity_columns)
      (.ok ⟨rows.map (fun r => r.1), rows.map (fun r => r.2.1),
        rows.map (fun r => r.2.2), activity_columns.map Prod.snd⟩, log0)

/-! Orchestrator: result collection and the per-course sheets. -/

/-- The three accumulators of main's collection loop. -/
structure RunAcc where
  per_course_results : List (String × List (List (String × CellVal)) × List String)
  consolidated_all : List (List CellVal)
  enrollment_all : List (List (String × CellVal))
deriving Repr

/-- The collection loop over the course tasks: a task whose future
raised is logged and dropped, a returned result is appended to the
three accumulators. -/
def collect_results : List (Course × CourseEnv) → RunAcc
  | [] => ⟨[], [], []⟩
  | (c, env) :: rest =>
    let r := collect_results rest
    match (process_one_course c env).1 with
    | .ok res =>
      ⟨(c.shortname, res.per_course_rows, res.act_cols) :: r.per_course_results,
       res.consolidated_rows ++ r.consolidated_all,
       res.enrollment_rows ++ r.enrollment_all⟩
    | .error _ => r

/-- The 13 fixed leading headers of a per-course sheet. -/
def per_course_base_headers : List String :=
  ["Course ID", "Course Name", "Course Shortname", "User ID", "Full Name",
   "Username", "Email", "Department", "Institution", "City", "Country",
   "Last Access", "Role(s)"]

/-- The 2 trailing headers of a per-course sheet. -/
def per_course_trailing_headers : List String :=
  ["Completion %", "Course Completion Status"]

/-- One per-course sheet: the header row, then one row per user reading
each header key from the row dict with default empty string. -/
def course_sheet (rows : List (List (String × CellVal)))
    (act_cols : List String) : List (List CellVal) :=
  let headers := per_course_base_headers ++ act_cols
    ++ per_course_trailing_headers
  headers.map CellVal.str
    :: rows.map (fun r => headers.map (fun h => (rowGet r h).getD (.str "")))

/-- All per-course sheets: results sorted by lowercased shortname, each
titled by the sanitized (or fallback) sheet name. -/
def course_sheets
    (pcr : List (String × List (List (String × CellVal)) × List String)) :
    List (String × List (List CellVal)) :=
  (pcr.mergeSort (fun a b => decide (pyLower a.1 ≤ pyLower b.1))).map
    (fun t => (sheet_title t.1, course_sheet t.2.1 t.2.2))

/-- The canonical representative of a hashable JSON value under
Python's key equality: numbers and booleans share their numeric value,
strings and None are themselves. -/
def keyRep : Json → Option (Int ⊕ String ⊕ Unit)
  | .num n => some (.inl n)
  | .bool b => some (.inl (if b then 1 else 0))
  | .str s => some (.inr (.inl s))
  | .null => some (.inr (.inr ()))
  | .arr _ => none
  | .obj _ => none

/-- A well-formed statuses entry with integer cmid and state. -/
def statusEntryJson (p : Int × Int) : Json :=
  .obj [("cmid", .num p.1), ("state", .num p.2)]

/-- A well-formed core_completion_get_activities_completion_status
response holding the given (cmid, state) entries. -/
def statusesJson (entries : List (Int × Int)) : Json :=
  .obj [("statuses", .arr (entries.map statusEntryJson))]

/-! Concrete runs used to instantiate the theorems below. -/

/-- A demo course. -/
def demoCourse : Course := ⟨3, "Chemistry", "CHEM101", 1⟩

/-- A demo enrolled user. -/
def demoUser : User := ⟨7, "Ada L", "ada", "ada@x.org", "", "", "", "", none, [], []⟩

/-- An environment whose contents fetch fails. -/
def envContentsFail : CourseEnv where
  contents := .error "connection refused"
  users := .ok [demoUser]
  completionCall := fun _ => .error "down"
  activityCall := fun _ => .error "down"
  fmtTime := fun _ => ""

/-- A second environment whose contents fetch fails, with another message. -/
def envContentsTimeout : CourseEnv where
  contents := .error "timeout"
  users := .ok [demoUser]
  completionCall := fun _ => .error "down"
  activityCall := fun _ => .error "down"
  fmtTime := fun _ => ""

/-- An environment whose enrolled-users fetch fails while the contents
fetch succeeds with one visible quiz. -/
def envUsersFail : CourseEnv where
  contents := .ok [⟨[⟨1, "Acids", "quiz", true, false⟩]⟩]
  users := .error "users call failed"
  completionCall := fun _ => .error "down"
  activityCall := fun _ => .error "down"
  fmtTime := fun _ => ""

/-- An environment with two visible quizzes both named A (so both render
the column name Quiz: A) and a user whose per-activity map only contains
cmid 2. -/
def envDupCols : CourseEnv where
  contents := .ok [⟨[⟨1, "A", "quiz", true, false⟩, ⟨2, "A", "quiz", true, false⟩]⟩]
  users := .ok [demoUser]
  completionCall := fun _ => .error "down"
  activityCall := fun _ => .ok (.obj [("statuses",
    .arr [.obj [("cmid", .num 2), ("state", .num 1)]])])
  fmtTime := fun _ => ""

/-- An environment with one visible quiz and a failing per-activity
completion call. -/
def envOneQuiz : CourseEnv where
  contents := .ok [⟨[⟨1, "Acids", "quiz", true, false⟩]⟩]
  users := .ok [demoUser]
  completionCall := fun _ => .error "down"
  activityCall := fun _ => .error "down"
  fmtTime := fun _ => ""

/-- Demo course list for the filtering theorem. -/
def demoCourses : List Course :=
  [⟨5, "Intro To X", "IX", 1⟩, ⟨7, "Other", "O", 1⟩]

/-! Supporting lemmas. -/

theorem digitChar_toNat (n : Nat) (h : n < 10) :
    (Char.ofNat (48 + n)).toNat = 48 + n := by
  interval_cases n <;> decide

theorem natDigitsAux_digits (fuel : Nat) :
    ∀ (n : Nat) (acc : List Char),
      (∀ c ∈ acc, 48 ≤ c.toNat ∧ c.toNat ≤ 57) →
      ∀ c ∈ natDigitsAux fuel n acc, 48 ≤ c.toNat ∧ c.toNat ≤ 57 := by
  induction fuel with
  | zero => exact fun n acc hacc c hc => hacc c hc
  | succ fuel ih =>
    intro n acc hacc c hc
    by_cases h : n < 10
    · rw [natDigitsAux, if_pos h] at hc
      rcases List.mem_cons.mp hc with rfl | hc
      · rw [digitChar_toNat n h]; omega
      · exact hacc c hc
    · rw [natDigitsAux, if_neg h] at hc
      refine ih (n / 10) _ ?_ c hc
      intro d hd
      rcases List.mem_cons.mp hd with rfl | hd
      · rw [digitChar_toNat (n % 10) (Nat.mod_lt n (by omega))]; omega
      · exact hacc d hd

theorem pyStrOfNat_digits (n : Nat) :
    ∀ c ∈ (pyStrOfNat n).data, 48 ≤ c.toNat ∧ c.toNat ≤ 57 :=
  natDigitsAux_digits (n + 1) n [] (by intro c hc; cases hc)

theorem pyStrOfInt_digitlike (i : Int) :
    ∀ c ∈ (pyStrOfInt i).data,
      c.toNat = 45 ∨ (48 ≤ c.toNat ∧ c.toNat ≤ 57) := by
  intro c hc
  unfold pyStrOfInt at hc
  split at hc
  · rcases List.mem_cons.mp hc with rfl | hc
    · left; decide
    · exact Or.inr (pyStrOfNat_digits i.natAbs c hc)
  · exact Or.inr (pyStrOfNat_digits i.natAbs c hc)

theorem toNat_ofNat_valid (n : Nat) (h : n < 55296) :
    (Char.ofNat n).toNat = n := by
  rw [Char.ofNat, dif_pos (Or.inl h)]
  rfl

theorem toLower_of_not_upper (c : Char)
    (h : ¬ (65 ≤ c.toNat ∧ c.toNat ≤ 90)) : Char.toLower c = c := by
  unfold Char.toLower
  exact if_neg (fun hc => h ⟨hc.1, hc.2⟩)

theorem toLower_of_upper (c : Char) (h : 65 ≤ c.toNat ∧ c.toNat ≤ 90) :
    (Char.toLower c).toNat = c.toNat + 32 := by
  unfold Char.toLower
  rw [if_pos ⟨h.1, h.2⟩]
  exact toNat_ofNat_valid _ (by omega)

theorem toLower_eq_digitlike {c d : Char}
    (hd : d.toNat = 45 ∨ (48 ≤ d.toNat ∧ d.toNat ≤ 57)) :
    Char.toLower c = d ↔ c = d := by
  constructor
  · intro h
    by_cases hu : 65 ≤ c.toNat ∧ c.toNat ≤ 90
    · exfalso
      have h2 := toLower_of_upper c hu
      rw [h] at h2
      omega
    · rwa [toLower_of_not_upper c hu] at h
  · intro h
    subst h
    exact toLower_of_not_upper c (by omega)

theorem map_toLower_eq_digitlike :
    ∀ (l m : List Char),
      (∀ c ∈ m, c.toNat = 45 ∨ (48 ≤ c.toNat ∧ c.toNat ≤ 57)) →
      (l.map Char.toLower = m ↔ l = m) := by
  intro l
  induction l with
  | nil => intro m hm; cases m <;> simp
  | cons c l ih =>
    intro m hm
    cases m with
    | nil => simp
    | cons d m =>
      simp only [List.map_cons, List.cons.injEq]
      rw [ih m (fun e he => hm e (List.mem_cons_of_mem _ he)),
          toLower_eq_digitlike (hm d (List.mem_cons_self _ _))]

theorem pyLower_eq_digitlike (s t : String)
    (ht : ∀ c ∈ t.data, c.toNat = 45 ∨ (48 ≤ c.toNat ∧ c.toNat ≤ 57)) :
    pyLower s = t ↔ s = t := by
  rw [String.ext_iff, String.ext_iff]
  exact map_toLower_eq_digitlike s.data t.data ht

theorem find?_update_list (r : List (String × CellVal)) (k : String) (v : CellVal) :
    (r.map (fun p => if p.1 = k then (p.1, v) else p)).find? (fun p => p.1 = k)
      = (r.find? (fun p => p.1 = k)).map (fun p => (p.1, v)) := by
  induction r with
  | nil => rfl
  | cons p r ih =>
    simp only [List.map_cons]
    by_cases hp : p.1 = k
    · rw [if_pos hp]
      simp [List.find?_cons, hp, -List.find?_map]
    · rw [if_neg hp]
      simp [List.find?_cons, hp, ih, -List.find?_map]

theorem find?_update_other (r : List (String × CellVal)) (k k2 : String)
    (v : CellVal) (h : k ≠ k2) :
    (r.map (fun p => if p.1 = k then (p.1, v) else p)).find? (fun p => p.1 = k2)
      = r.find? (fun p => p.1 = k2) := by
  induction r with
  | nil => rfl
  | cons p r ih =>
    simp only [List.map_cons]
    by_cases hp : p.1 = k
    · have hp2 : ¬ p.1 = k2 := by rw [hp]; exact h
      rw [if_pos hp]
      simp [List.find?_cons, hp2, ih, -List.find?_map]
    · rw [if_neg hp]
      by_cases hq : p.1 = k2
      · simp [List.find?_cons, hq, -List.find?_map]
      · simp [List.find?_cons, hq, ih, -List.find?_map]

theorem rowGet_pyDictInsert_self (r : List (String × CellVal)) (k : String)
    (v : CellVal) : rowGet (pyDictInsert r k v) k = some v := by
  unfold rowGet pyDictInsert
  by_cases h : r.any (fun p => decide (p.1 = k))
  · rw [if_pos h, find?_update_list]
    rcases hf : r.find? (fun p => p.1 = k) with _ | q
    · rw [List.find?_eq_none] at hf
      rcases List.any_eq_true.mp h with ⟨p, hp, hpk⟩
      exact absurd hpk (hf p hp)
    · rw [hf]
      rfl
  · rw [if_neg h, List.find?_append]
    have hnone : r.find? (fun p => p.1 = k) = none := by
      rw [List.find?_eq_none]
      intro p hp hpk
      exact h (List.any_eq_true.mpr ⟨p, hp, hpk⟩)
    simp [hnone, List.find?_cons]

theorem rowGet_pyDictInsert_ne (r : List (String × CellVal)) (k k2 : String)
    (v : CellVal) (h : k ≠ k2) :
    rowGet (pyDictInsert r k v) k2 = rowGet r k2 := by
  unfold rowGet pyDictInsert
  by_cases hany : r.any (fun p => decide (p.1 = k))
  · rw [if_pos hany, find?_update_other r k k2 v h]
  · rw [if_neg hany, List.find?_append]
    have h2 : List.find? (fun p => p.1 = k2) [(k, v)] = none := by
      simp [List.find?_cons, h]
    rw [h2]
    simp

theorem rowGet_actfold_not_mem (a_map : List (Json × String))
    (cols : List (Int × String)) (r : List (String × CellVal)) (col : String)
    (h : col ∉ cols.map Prod.snd) :
    rowGet (cols.foldl (fun r p =>
        pyDictInsert r p.2 (.str (amapGet a_map (.num p.1) "Incomplete"))) r) col
      = rowGet r col := by
  induction cols generalizing r with
  | nil => rfl
  | cons p cols ih =>
    rw [List.foldl_cons]
    rw [ih _ (fun hm => h (by simp only [List.map_cons]; exact List.mem_cons_of_mem _ hm))]
    exact rowGet_pyDictInsert_ne _ _ _ _
      (fun he => h (by simp only [List.map_cons, he]; exact List.mem_cons_self _ _))

theorem rowGet_actfold_split (a_map : List (Json × String))
    (l1 l2 : List (Int × String)) (cmid : Int) (col : String)
    (r : List (String × CellVal)) (h2 : col ∉ l2.map Prod.snd) :
    rowGet ((l1 ++ (cmid, col) :: l2).foldl (fun r p =>
        pyDictInsert r p.2 (.str (amapGet a_map (.num p.1) "Incomplete"))) r) col
      = some (.str (amapGet a_map (.num cmid) "Incomplete")) := by
  rw [List.foldl_append, List.foldl_cons]
  rw [rowGet_actfold_not_mem a_map l2 _ col h2]
  exact rowGet_pyDictInsert_self _ _ _

theorem exists_last_col_split (cols : List (Int × String)) (col : String)
    (h : col ∈ cols.map Prod.snd) :
    ∃ l1 cmid l2, cols = l1 ++ (cmid, col) :: l2 ∧ col ∉ l2.map Prod.snd := by
  induction cols with
  | nil => simp at h
  | cons p rest ih =>
    by_cases hc : col ∈ rest.map Prod.snd
    · obtain ⟨l1, cmid, l2, hEq, hNot⟩ := ih hc
      exact ⟨p :: l1, cmid, l2, by rw [List.cons_append, hEq], hNot⟩
    · have hp : p.2 = col := by
        rcases List.mem_map.mp h with ⟨q, hq, hq2⟩
        rcases List.mem_cons.mp hq with rfl | hq2'
        · exact hq2
        · exact absurd (List.mem_map.mpr ⟨q, hq2', hq2⟩) hc
      refine ⟨[], p.1, rest, ?_, hc⟩
      rw [List.nil_append, ← hp]

theorem pyEqKey_iff (a b : Json) :
    pyEqKey a b = true ↔ ∃ r, keyRep a = some r ∧ keyRep b = some r := by
  cases a <;> cases b <;> simp [pyEqKey, keyRep] <;>
    first
      | exact eq_comm
      | (rename_i x y; cases x <;> cases y <;> simp)

theorem pyEqKey_refl_hashable (k : Json) (h : k.pyHashable = true) :
    pyEqKey k k = true := by
  cases k <;> simp_all [pyEqKey, Json.pyHashable]

theorem find?_amapUpdate (m : List (Json × String)) (knew k : Json)
    (v : String) (h : pyEqKey knew k = false) :
    (m.map (fun p => if pyEqKey p.1 knew then (p.1, v) else p)).find?
        (fun p => pyEqKey p.1 k)
      = m.find? (fun p => pyEqKey p.1 k) := by
  induction m with
  | nil => rfl
  | cons p rest ih =>
    simp only [List.map_cons]
    by_cases hp : pyEqKey p.1 knew = true
    · have hpk : pyEqKey p.1 k = false := by
        rcases (pyEqKey_iff _ _).mp hp with ⟨r, h1, h2⟩
        rw [← Bool.not_eq_true]
        intro hc
        rcases (pyEqKey_iff _ _).mp hc with ⟨r2, h3, h4⟩
        rw [h1] at h3
        injection h3 with h3
        subst h3
        have : pyEqKey knew k = true := (pyEqKey_iff _ _).mpr ⟨r, h2, h4⟩
        rw [this] at h
        cases h
      rw [if_pos hp]
      simp [List.find?_cons, hpk, ih, -List.find?_map]
    · rw [if_neg hp]
      by_cases hq : pyEqKey p.1 k = true
      · simp [List.find?_cons, hq, -List.find?_map]
      · simp [List.find?_cons, hq, ih, -List.find?_map]

theorem amapFind_insert_ne (m : List (Json × String)) (knew k : Json)
    (v : String) (h : pyEqKey knew k = false) :
    amapFind (amapInsert m knew v) k = amapFind m k := by
  unfold amapFind amapInsert
  by_cases hany : m.any (fun p => pyEqKey p.1 knew)
  · rw [if_pos hany, find?_amapUpdate m knew k v h]
  · rw [if_neg hany, List.find?_append]
    have h2 : List.find? (fun p => pyEqKey p.1 k) [(knew, v)] = none := by
      simp [List.find?_cons, h]
    rw [h2]
    simp

theorem amapFind_insert_self (m : List (Json × String)) (k : Json) (v : String)
    (hk : k.pyHashable = true) (h : amapFind m k = none) :
    amapFind (amapInsert m k v) k = some (k, v) := by
  unfold amapFind amapInsert
  unfold amapFind at h
  have hany : ¬ m.any (fun p => pyEqKey p.1 k) = true := by
    rw [List.any_eq_true]
    rintro ⟨p, hp, hpk⟩
    exact absurd hpk (List.find?_eq_none.mp h p hp)
  rw [if_neg hany, List.find?_append, h]
  simp [List.find?_cons, pyEqKey_refl_hashable k hk]

theorem pyEqKey_num_ne (a b : Int) (h : a ≠ b) :
    pyEqKey (.num a) (.num b) = false := by
  simp [pyEqKey, h]

theorem activityStatusesLoop_step (p : Int × Int) (l : List Json)
    (acc : List (Json × String)) :
    activityStatusesLoop (statusEntryJson p :: l) acc
      = activityStatusesLoop l
          (amapInsert acc (.num p.1) (statusOfState (.num p.2))) := rfl

theorem loop_preserve (entries : List (Int × Int)) (acc : List (Json × String))
    (cmid : Int) (q : Json × String)
    (hfound : amapFind acc (.num cmid) = some q)
    (hne : ∀ p ∈ entries, p.1 ≠ cmid) :
    amapFind (activityStatusesLoop (entries.map statusEntryJson) acc) (.num cmid)
      = some q := by
  induction entries generalizing acc with
  | nil => simpa [activityStatusesLoop] using hfound
  | cons p rest ih =>
    rw [List.map_cons, activityStatusesLoop_step]
    refine ih _ ?_ (fun r hr => hne r (List.mem_cons_of_mem _ hr))
    rw [amapFind_insert_ne _ _ _ _
      (pyEqKey_num_ne p.1 cmid (hne p (List.mem_cons_self _ _)))]
    exact hfound

theorem loop_found (entries : List (Int × Int)) (cmid state : Int) :
    (cmid, state) ∈ entries → (entries.map Prod.fst).Nodup →
    ∀ acc : List (Json × String), amapFind acc (.num cmid) = none →
    amapFind (activityStatusesLoop (entries.map statusEntryJson) acc) (.num cmid)
      = some (.num cmid, statusOfState (.num state)) := by
  induction entries with
  | nil => intro hmem; cases hmem
  | cons p rest ih =>
    intro hmem hnd acc hacc
    simp only [List.map_cons] at hnd
    have hnd1 := (List.nodup_cons.mp hnd).1
    have hnd2 := (List.nodup_cons.mp hnd).2
    rw [List.map_cons, activityStatusesLoop_step]
    rcases List.mem_cons.mp hmem with heq | hmem'
    · cases heq
      have hfound := amapFind_insert_self acc (.num cmid)
        (statusOfState (.num state)) rfl hacc
      refine loop_preserve rest _ cmid _ hfound ?_
      intro r hr he
      exact hnd1 (he ▸ List.mem_map.mpr ⟨r, hr, rfl⟩)
    · have hp1 : p.1 ≠ cmid := by
        intro he
        exact hnd1 (he ▸ List.mem_map.mpr ⟨(cmid, state), hmem', rfl⟩)
      refine ih hmem' hnd2 _ ?_
      rw [amapFind_insert_ne _ _ _ _ (pyEqKey_num_ne p.1 cmid hp1)]
      exact hacc

theorem statusOfState_label (state : Json) :
    statusOfState state = "Completed" ∨ statusOfState state = "Failed"
      ∨ statusOfState state = "Incomplete" := by
  unfold statusOfState
  split_ifs <;> simp

theorem amapInsert_values {P : String → Prop} (m : List (Json × String))
    (k : Json) (v : String) (hm : ∀ p ∈ m, P p.2) (hv : P v) :
    ∀ p ∈ amapInsert m k v, P p.2 := by
  unfold amapInsert
  split_ifs with h
  · intro p hp
    rcases List.mem_map.mp hp with ⟨q, hq, rfl⟩
    by_cases hqk : pyEqKey q.1 k = true
    · rw [if_pos hqk]
      exact hv
    · rw [if_neg hqk]
      exact hm q hq
  · intro p hp
    rcases List.mem_append.mp hp with hp | hp
    · exact hm p hp
    · rcases List.mem_singleton.mp hp with rfl
      exact hv

theorem loop_values {P : String → Prop}
    (hP : P "Completed" ∧ P "Failed" ∧ P "Incomplete") :
    ∀ (ss : List Json) (acc : List (Json × String)),
      (∀ p ∈ acc, P p.2) → ∀ p ∈ activityStatusesLoop ss acc, P p.2 := by
  intro ss
  induction ss with
  | nil => intro acc hacc; simpa [activityStatusesLoop] using hacc
  | cons s rest ih =>
    intro acc hacc p hp
    have hlabel : P (statusOfState (((s.dictGet "state").getD (.num 0)))) := by
      rcases statusOfState_label ((s.dictGet "state").getD (.num 0)) with h | h | h <;>
        rw [h] <;> tauto
    cases s with
    | obj fs =>
      rw [activityStatusesLoop] at hp
      split at hp
      · exact ih _ (amapInsert_values _ _ _ hacc hlabel) p hp
      · exact hacc p hp
    | null => exact hacc p hp
    | bool b => exact hacc p hp
    | num n => exact hacc p hp
    | str s => exact hacc p hp
    | arr xs => exact hacc p hp

theorem get_activity_completion_eq (fields : List (String × Json)) :
    get_activity_completion (.ok (.obj fields))
      = (match fields.lookup "statuses" with
         | some (.arr statuses) => activityStatusesLoop statuses []
         | some _ => []
         | none => []) := rfl

theorem get_activity_completion_values (jr : Except String Json) :
    ∀ p ∈ get_activity_completion jr,
      p.2 = "Completed" ∨ p.2 = "Failed" ∨ p.2 = "Incomplete" := by
  cases jr with
  | error e => intro p hp; exact absurd hp (List.not_mem_nil p)
  | ok data =>
    cases data with
    | obj fields =>
      rw [get_activity_completion_eq]
      rcases hs : fields.lookup "statuses" with _ | j
      · intro p hp
        exact absurd hp (List.not_mem_nil p)
      · cases j with
        | arr xs =>
          intro p hp
          exact loop_values
            (P := fun v => v = "Completed" ∨ v = "Failed" ∨ v = "Incomplete")
            ⟨Or.inl rfl, Or.inr (Or.inl rfl), Or.inr (Or.inr rfl)⟩
            xs [] (fun q hq => absurd hq (List.not_mem_nil q)) p hp
        | null => intro p hp; exact absurd hp (List.not_mem_nil p)
        | bool b => intro p hp; exact absurd hp (List.not_mem_nil p)
        | num n => intro p hp; exact absurd hp (List.not_mem_nil p)
        | str s => intro p hp; exact absurd hp (List.not_mem_nil p)
        | obj fs => intro p hp; exact absurd hp (List.not_mem_nil p)
    | null => intro p hp; exact absurd hp (List.not_mem_nil p)
    | bool b => intro p hp; exact absurd hp (List.not_mem_nil p)
    | num n => intro p hp; exact absurd hp (List.not_mem_nil p)
    | str s => intro p hp; exact absurd hp (List.not_mem_nil p)
    | arr xs => intro p hp; exact absurd hp (List.not_mem_nil p)

theorem amapGet_label (m : List (Json × String)) (k : Json)
    (hm : ∀ p ∈ m, p.2 = "Completed" ∨ p.2 = "Failed" ∨ p.2 = "Incomplete") :
    amapGet m k "Incomplete" = "Completed" ∨ amapGet m k "Incomplete" = "Failed"
      ∨ amapGet m k "Incomplete" = "Incomplete" := by
  unfold amapGet
  rcases hf : amapFind m k with _ | q
  · simp
  · exact hm q (List.mem_of_find?_eq_some hf)

theorem get_course_completion_ok_obj (fields : List (String × Json)) :
    get_course_completion (.ok (.obj fields))
      = (match fields.lookup "completionstatus" with
         | some cs =>
           match cs with
           | .obj csf =>
             if ((csf.lookup "completed").getD .null).truthy
             then ((100 : Int), "Completed") else ((0 : Int), "Incomplete")
           | _ => ((0 : Int), "N/A")
         | none => ((0 : Int), "N/A")) := rfl

theorem process_one_course_users_fail (c : Course) (env : CourseEnv)
    (secs : List CourseSection) (e : String)
    (h1 : env.contents = .ok secs) (h2 : env.users = .error e) :
    process_one_course c env
      = (.ok ⟨[], [], [],
            (activity_columns_of (section_activities secs)).map Prod.snd⟩,
         ["Processing course: " ++ c.fullname ++ " (ID="
             ++ pyStrOfInt c.id ++ ")"]
           ++ ["  ❌ Failed to get users for course " ++ c.fullname
             ++ ": " ++ e]) := by
  simp [process_one_course, get_course_activities, h1, h2]

theorem collect_results_cons (c : Course) (env : CourseEnv)
    (rest : List (Course × CourseEnv)) :
    collect_results ((c, env) :: rest)
      = (match (process_one_course c env).1 with
         | .ok res =>
           ⟨(c.shortname, res.per_course_rows, res.act_cols)
               :: (collect_results rest).per_course_results,
            res.consolidated_rows ++ (collect_results rest).consolidated_all,
            res.enrollment_rows ++ (collect_results rest).enrollment_all⟩
         | .error _ => collect_results rest) := rfl

theorem user_rows_fst (c : Course) (env : CourseEnv)
    (cols : List (Int × String)) (u : User) :
    (user_rows c env cols u).1
      = course_row c env.fmtTime u
          (get_course_completion (env.completionCall u.id)).1
          (get_course_completion (env.completionCall u.id)).2
          (get_activity_completion (env.activityCall u.id)) cols := rfl

theorem course_row_eq (c : Course) (fmt : Nat → String) (u : User)
    (c_pct : Int) (c_status : String) (a_map : List (Json × String))
    (cols : List (Int × String)) :
    course_row c fmt u c_pct c_status a_map cols
      = cols.foldl (fun r p =>
          pyDictInsert r p.2 (.str (amapGet a_map (.num p.1) "Incomplete")))
          (pyDictUpdate
            (pyDictUpdate [
              ("Course ID", .int c.id),
              ("Course Name", .str c.fullname),
              ("Course Shortname", .str c.shortname)]
              (base_user_row fmt u))
            [("Course Completion Status", .str c_status),
             ("Completion %", .int c_pct)]) := rfl

/-! Claims. -/

/-- Claim C9: for every input string, sanitize_sheet_name returns a
string containing only the characters A-Z, a-z, 0-9, of length at most
31, preserving the order of the kept characters (its character list is
a sublist of the input's); when the sanitized result is empty, the
sheet title falls back to "Course". -/
theorem C9_sanitize_sheet_name_spec (name : String) :
    (∀ c ∈ (sanitize_sheet_name name).data,
      ('A' ≤ c ∧ c ≤ 'Z') ∨ ('a' ≤ c ∧ c ≤ 'z') ∨ ('0' ≤ c ∧ c ≤ '9'))
    ∧ (sanitize_sheet_name name).length ≤ 31
    ∧ (sanitize_sheet_name name).data.Sublist name.data
    ∧ (sanitize_sheet_name name = "" → sheet_title name = "Course") := by
  refine ⟨?_, ?_, ?_, ?_⟩
  · intro c hc
    have h1 : c ∈ name.data.filter isSheetChar := List.mem_of_mem_take hc
    have h2 := List.of_mem_filter h1
    have h3 : ('A' ≤ c ∧ c ≤ 'Z' ∨ 'a' ≤ c ∧ c ≤ 'z') ∨ '0' ≤ c ∧ c ≤ '9' := by
      simpa [isSheetChar, Bool.or_eq_true, Bool.and_eq_true,
        decide_eq_true_eq] using h2
    tauto
  · show ((name.data.filter isSheetChar).take 31).length ≤ 31
    exact List.length_take_le 31 (name.data.filter isSheetChar)
  · exact (List.take_sublist _ _).trans (List.filter_sublist _)
  · intro h
    simp [sheet_title, h]

/-- Claim C9 witness: a name that sanitizes to empty gets the fallback
sheet title "Course". -/
theorem C9_witness : sheet_title "???" = "Course" :=
  (C9_sanitize_sheet_name_spec "???").2.2.2 rfl

/-- Claim C2: a failed course-completion call yields exactly (0, "N/A")
with no propagation (the function is total), a genuine not-completed
response yields (0, "Incomplete"), and the two labels differ. -/
theorem C2_course_completion_failure_policy (e : String)
    (fields csf : List (String × Json)) :
    get_course_completion (.error e) = (0, "N/A")
    ∧ (fields.lookup "completionstatus" = some (.obj csf) →
        ((csf.lookup "completed").getD .null).truthy = false →
        get_course_completion (.ok (.obj fields)) = (0, "Incomplete"))
    ∧ ((0, "N/A") : Int × String) ≠ ((0, "Incomplete") : Int × String) := by
  refine ⟨rfl, ?_, by decide⟩
  intro h1 h2
  rw [get_course_completion_ok_obj, h1]
  simp [h2]

/-- Claim C2 witness at a concrete failed call and a concrete
not-completed response. -/
theorem C2_witness :
    get_course_completion (.error "HTTP error 500") = (0, "N/A")
    ∧ get_course_completion (.ok (.obj
        [("completionstatus", .obj [("completed", .bool false)])]))
      = (0, "Incomplete") := by
  have h := C2_course_completion_failure_policy "HTTP error 500"
    [("completionstatus", .obj [("completed", .bool false)])]
    [("completed", .bool false)]
  exact ⟨h.1, h.2.1 rfl rfl⟩

/-- Claim C7: a statuses entry with numeric state 1 or 2 renders
"Completed", state 3 renders "Failed", any other state renders
"Incomplete", and a missing state defaults to 0, hence "Incomplete". -/
theorem C7_state_code_labels (cmid state : Int) :
    get_activity_completion (.ok (statusesJson [(cmid, state)]))
        = [(.num cmid,
            if state = 1 ∨ state = 2 then "Completed"
            else if state = 3 then "Failed" else "Incomplete")]
    ∧ get_activity_completion (.ok (.obj [("statuses",
          .arr [.obj [("cmid", .num cmid)]])]))
        = [(.num cmid, "Incomplete")] := by
  constructor
  · have hg : get_activity_completion (.ok (statusesJson [(cmid, state)]))
        = [(.num cmid, statusOfState (.num state))] := rfl
    rw [hg]
    have hs : statusOfState (.num state)
        = if state = 1 ∨ state = 2 then "Completed"
          else if state = 3 then "Failed" else "Incomplete" := by
      unfold statusOfState
      by_cases h1 : state = 1 <;> by_cases h2 : state = 2 <;>
        by_cases h3 : state = 3 <;> simp [pyEqKey, h1, h2, h3]
    rw [hs]
  · rfl

/-- Claim C6: a failed per-activity completion call yields the empty
mapping (no propagation), and a successful well-formed response yields
the mapping sending each activity id to the label of its state. -/
theorem C6_activity_completion_policy (e : String)
    (entries : List (Int × Int)) (cmid state : Int) :
    get_activity_completion (.error e) = []
    ∧ ((cmid, state) ∈ entries → (entries.map Prod.fst).Nodup →
        amapFind (get_activity_completion (.ok (statusesJson entries)))
            (.num cmid)
          = some (.num cmid, statusOfState (.num state))) := by
  refine ⟨rfl, ?_⟩
  intro hmem hnd
  have hg : get_activity_completion (.ok (statusesJson entries))
      = activityStatusesLoop (entries.map statusEntryJson) [] := rfl
  rw [hg]
  exact loop_found entries cmid state hmem hnd [] rfl

/-- Claim C6 witness: failed call yields the empty map; a concrete
two-entry response maps activity 12 to its state's label. -/
theorem C6_witness :
    get_activity_completion (.error "boom") = []
    ∧ amapFind (get_activity_completion (.ok (statusesJson [(11, 1), (12, 3)])))
          (.num 12)
        = some (.num 12, statusOfState (.num 3)) := by
  have h := C6_activity_completion_policy "boom" [(11, 1), (12, 3)] 12 3
  exact ⟨h.1, h.2 (by simp) (by simp)⟩

/-- Claim C5 counterexample: a response with the non-2xx status 300 and
a clean payload is NOT treated as a failure — the attempt succeeds and
the wrapper returns the parsed data on the first attempt with no retry
and no sleep, contradicting the claim that any non-2xx status is
retried (raise_for_status only raises for 4xx/5xx). -/
theorem C5_counterexample :
    attemptOutcome (.resp 300 (.obj [("courses", .arr [])]))
        = .ok (.obj [("courses", .arr [])])
    ∧ call_moodle (fun _ => attemptOutcome (.resp 300 (.obj [("courses", .arr [])])))
        = (.ok (.obj [("courses", .arr [])]), []) :=
  ⟨rfl, rfl⟩

/-- Claim C5 (amended): the wrapper attempts a call at most 3 times,
retrying on any exception — a network error, an HTTP error status
(4xx/5xx, the statuses raise_for_status raises for), or a payload with
a truthy "exception" field — sleeping attempt-index x 1.5 seconds
between attempts, raising the last failure after the 3rd failed
attempt, and returning parsed data immediately on a successful
attempt. -/
theorem C5_call_moodle_retry_policy (f : Nat → Except String Json)
    (d : Json) (e1 e2 e3 m : String) (status : Nat)
    (body : Json) (fields : List (String × Json)) :
    (f 1 = .ok d → call_moodle f = (.ok d, []))
    ∧ (f 1 = .error e1 → f 2 = .ok d →
        call_moodle f = (.ok d, [RETRY_SLEEP_SECONDS * 1]))
    ∧ (f 1 = .error e1 → f 2 = .error e2 → f 3 = .ok d →
        call_moodle f
          = (.ok d, [RETRY_SLEEP_SECONDS * 1, RETRY_SLEEP_SECONDS * 2]))
    ∧ (f 1 = .error e1 → f 2 = .error e2 → f 3 = .error e3 →
        call_moodle f
          = (.error e3, [RETRY_SLEEP_SECONDS * 1, RETRY_SLEEP_SECONDS * 2]))
    ∧ RETRY_SLEEP_SECONDS = 3 / 2
    ∧ RETRY_COUNT = 3
    ∧ attemptOutcome (.netErr m) = .error m
    ∧ (400 ≤ status → status < 600 →
        attemptOutcome (.resp status body)
          = .error ("HTTP error " ++ pyStrOfNat status))
    ∧ (¬ (400 ≤ status ∧ status < 600) →
        ((fields.lookup "exception").getD .null).truthy = true →
        attemptOutcome (.resp status (.obj fields))
          = .error (moodleExcMsg fields))
    ∧ (¬ (400 ≤ status ∧ status < 600) →
        ((fields.lookup "exception").getD .null).truthy = false →
        attemptOutcome (.resp status (.obj fields)) = .ok (.obj fields)) := by
  have hr : call_moodle f = call_moodle_go f [1, 2, 3] := rfl
  refine ⟨?_, ?_, ?_, ?_, by norm_num [RETRY_SLEEP_SECONDS], rfl, rfl,
    ?_, ?_, ?_⟩
  · intro h1
    rw [hr]
    simp [call_moodle_go, h1]
  · intro h1 h2
    rw [hr]
    simp [call_moodle_go, RETRY_COUNT, h1, h2]
  · intro h1 h2 h3
    rw [hr]
    simp [call_moodle_go, RETRY_COUNT, h1, h2, h3]
  · intro h1 h2 h3
    rw [hr]
    simp [call_moodle_go, RETRY_COUNT, h1, h2, h3]
  · intro ha hb
    have hro : raise_for_status status
        = .error ("HTTP error " ++ pyStrOfNat status) := by
      unfold raise_for_status
      rw [if_pos ⟨ha, hb⟩]
    simp [attemptOutcome, hro]
  · intro ha hb
    have hro : raise_for_status status = .ok () := by
      unfold raise_for_status
      rw [if_neg ha]
    simp [attemptOutcome, hro, hb]
  · intro ha hb
    have hro : raise_for_status status = .ok () := by
      unfold raise_for_status
      rw [if_neg ha]
    simp [attemptOutcome, hro, hb]

/-- Claim C5 witness: three straight network failures exhaust the
retries, the wrapper sleeps 1.5 s then 3.0 s, and the last failure is
raised. -/
theorem C5_witness :
    call_moodle (fun _ => .error "net down")
      = (.error "net down", [RETRY_SLEEP_SECONDS * 1, RETRY_SLEEP_SECONDS * 2]) :=
  ((C5_call_moodle_retry_policy (fun _ => .error "net down")
      .null "net down" "net down" "net down" "" 0 .null []).2.2.2.1) rfl rfl rfl

theorem get_all_courses_some (courses : List Course) (sc : List String) :
    get_all_courses courses (some sc)
      = if sc.isEmpty then courses
        else courses.filter (fun c =>
          (sc.map pyLower).contains (pyStrOfInt c.id)
            || (sc.map pyLower).contains (pyLower c.fullname)) := rfl

/-- Claim C8: with a non-empty filter list, get_all_courses returns
exactly the courses whose id rendered by str() equals some filter
entry, or whose full name equals some entry case-insensitively;
unmatched entries contribute nothing and nothing fails. -/
theorem C8_course_filtering (courses : List Course) (sc : List String)
    (h : sc ≠ []) :
    get_all_courses courses (some sc)
      = courses.filter (fun c => decide (∃ e ∈ sc,
          pyStrOfInt c.id = e ∨ pyLower c.fullname = pyLower e)) := by
  rw [get_all_courses_some]
  rw [if_neg (by simpa [List.isEmpty_iff] using h)]
  apply List.filter_congr
  intro c hc
  rw [Bool.eq_iff_iff]
  simp only [Bool.or_eq_true, decide_eq_true_eq]
  constructor
  · rintro (hid | hname)
    · have hmem : pyStrOfInt c.id ∈ sc.map pyLower := List.elem_iff.mp hid
      rcases List.mem_map.mp hmem with ⟨e, he, heq⟩
      have : e = pyStrOfInt c.id :=
        (pyLower_eq_digitlike e (pyStrOfInt c.id)
          (pyStrOfInt_digitlike c.id)).mp heq
      exact ⟨e, he, Or.inl this.symm⟩
    · have hmem : pyLower c.fullname ∈ sc.map pyLower := List.elem_iff.mp hname
      rcases List.mem_map.mp hmem with ⟨e, he, heq⟩
      exact ⟨e, he, Or.inr heq.symm⟩
  · rintro ⟨e, he, hid | hname⟩
    · refine Or.inl (List.elem_iff.mpr (List.mem_map.mpr ⟨e, he, ?_⟩))
      exact (pyLower_eq_digitlike e (pyStrOfInt c.id)
        (pyStrOfInt_digitlike c.id)).mpr hid.symm
    · exact Or.inr (List.elem_iff.mpr (List.mem_map.mpr ⟨e, he, hname.symm⟩))

/-- Claim C8 witness: a filter list with a case-shuffled full name and
an unmatched numeric id keeps exactly the matching course and raises
nothing. -/
theorem C8_witness :
    get_all_courses demoCourses (some ["INTRO TO X", "99"])
      = [⟨5, "Intro To X", "IX", 1⟩] := by
  rw [C8_course_filtering demoCourses ["INTRO TO X", "99"] (by simp)]
  decide

/-- Claim C1 counterexample: when the activities fetch
(core_course_get_contents) fails, process_one_course does NOT absorb
the failure — it raises the error to its caller instead of returning a
result, contradicting the claim that the aggregator never raises. -/
theorem C1_counterexample :
    (process_one_course demoCourse envContentsFail).1
      = .error "connection refused" := rfl

/-- Claim C1 (amended): only the enrolled-users fetch failure is caught
inside process_one_course (and completion-query failures are absorbed
at lower layers, see C2 and C6); an activities-fetch failure is NOT
absorbed and propagates to the caller.  Whenever the activities fetch
succeeds, the aggregator returns a (possibly empty) result without
raising. -/
theorem C1_process_one_course_error_boundary (c : Course) (env : CourseEnv) :
    (∀ e, env.contents = .error e →
      (process_one_course c env).1 = .error e)
    ∧ (∀ secs, env.contents = .ok secs →
        ∃ res, (process_one_course c env).1 = .ok res) := by
  constructor
  · intro e he
    simp [process_one_course, get_course_activities, he]
  · intro secs hs
    rcases hu : env.users with e | us
    · exact ⟨_, by
        simp only [process_one_course, get_course_activities, hs, hu]
        rfl⟩
    · exact ⟨_, by
        simp only [process_one_course, get_course_activities, hs, hu]
        rfl⟩

/-- Claim C1 witness: a second concrete activities-fetch failure
propagates with its own message, and a successful contents fetch always
produces a returned result. -/
theorem C1_witness :
    (process_one_course demoCourse envContentsTimeout).1 = .error "timeout"
    ∧ ∃ res, (process_one_course demoCourse envUsersFail).1 = .ok res :=
  ⟨(C1_process_one_course_error_boundary demoCourse envContentsTimeout).1
      "timeout" rfl,
   (C1_process_one_course_error_boundary demoCourse envUsersFail).2
      [⟨[⟨1, "Acids", "quiz", true, false⟩]⟩] rfl⟩

/-- Claim C3: when the enrolled-users fetch fails (the contents fetch
having succeeded), the aggregator returns empty per-course,
consolidated and enrollment row collections, prints a failure message
naming the course, and the collection loop neither aborts nor receives
any row from that course. -/
theorem C3_users_failure_is_contained (c : Course) (env : CourseEnv)
    (secs : List CourseSection) (e : String)
    (rest : List (Course × CourseEnv))
    (h1 : env.contents = .ok secs) (h2 : env.users = .error e) :
    (process_one_course c env).1
        = .ok ⟨[], [], [],
            (activity_columns_of (section_activities secs)).map Prod.snd⟩
    ∧ ("  ❌ Failed to get users for course " ++ c.fullname ++ ": " ++ e)
        ∈ (process_one_course c env).2
    ∧ collect_results ((c, env) :: rest)
        = ⟨(c.shortname, [],
              (activity_columns_of (section_activities secs)).map Prod.snd)
              :: (collect_results rest).per_course_results,
            (collect_results rest).consolidated_all,
            (collect_results rest).enrollment_all⟩ := by
  have hp := process_one_course_users_fail c env secs e h1 h2
  refine ⟨by rw [hp], by rw [hp]; simp, ?_⟩
  rw [collect_results_cons, hp]
  simp

/-- Claim C3 witness: a concrete course whose users fetch fails
contributes empty row collections, a printed failure message naming it,
and one empty per-course entry in the collection loop. -/
theorem C3_witness :
    (process_one_course demoCourse envUsersFail).1
        = .ok ⟨[], [], [], ["Quiz: Acids"]⟩
    ∧ ("  ❌ Failed to get users for course Chemistry: users call failed")
        ∈ (process_one_course demoCourse envUsersFail).2
    ∧ collect_results [(demoCourse, envUsersFail)]
        = ⟨[("CHEM101", [], ["Quiz: Acids"])], [], []⟩ := by
  have h := C3_users_failure_is_contained demoCourse envUsersFail
    [⟨[⟨1, "Acids", "quiz", true, false⟩]⟩] "users call failed" [] rfl rfl
  exact ⟨h.1, h.2.1, h.2.2⟩

/-- Claim C10: when the activities fetch succeeds and the enrolled-users
fetch fails, the aggregator still returns the course's activity column
list, the course still reaches the workbook's per-course results, and
its sheet consists of exactly the header row (base columns, activity
columns, trailing columns) with zero data rows. -/
theorem C10_empty_sheet_on_users_failure (c : Course) (env : CourseEnv)
    (secs : List CourseSection) (e : String)
    (rest : List (Course × CourseEnv))
    (h1 : env.contents = .ok secs) (h2 : env.users = .error e) :
    (process_one_course c env).1
        = .ok ⟨[], [], [],
            (activity_columns_of (section_activities secs)).map Prod.snd⟩
    ∧ (c.shortname, [],
          (activity_columns_of (section_activities secs)).map Prod.snd)
        ∈ (collect_results ((c, env) :: rest)).per_course_results
    ∧ (sheet_title c.shortname,
          course_sheet []
            ((activity_columns_of (section_activities secs)).map Prod.snd))
        ∈ course_sheets
            ((collect_results ((c, env) :: rest)).per_course_results)
    ∧ course_sheet []
          ((activity_columns_of (section_activities secs)).map Prod.snd)
        = [(per_course_base_headers
            ++ (activity_columns_of (section_activities secs)).map Prod.snd
            ++ per_course_trailing_headers).map CellVal.str] := by
  have hp := process_one_course_users_fail c env secs e h1 h2
  have hmem : (c.shortname, [],
      (activity_columns_of (section_activities secs)).map Prod.snd)
      ∈ (collect_results ((c, env) :: rest)).per_course_results := by
    rw [collect_results_cons, hp]
    exact List.mem_cons_self _ _
  refine ⟨by rw [hp], hmem, ?_, rfl⟩
  unfold course_sheets
  refine List.mem_map.mpr ⟨(c.shortname, [],
    (activity_columns_of (section_activities secs)).map Prod.snd), ?_, rfl⟩
  exact (List.mergeSort_perm
    (collect_results ((c, env) :: rest)).per_course_results _).mem_iff.mpr hmem

/-- Claim C10 witness: the failed-users course still gets a per-course
sheet holding exactly its header row. -/
theorem C10_witness :
    (sheet_title "CHEM101", course_sheet [] ["Quiz: Acids"])
      ∈ course_sheets
          ((collect_results [(demoCourse, envUsersFail)]).per_course_results)
    ∧ course_sheet [] ["Quiz: Acids"]
        = [(per_course_base_headers ++ ["Quiz: Acids"]
            ++ per_course_trailing_headers).map CellVal.str] := by
  have h := C10_empty_sheet_on_users_failure demoCourse envUsersFail
    [⟨[⟨1, "Acids", "quiz", true, false⟩]⟩] "users call failed" [] rfl rfl
  exact ⟨h.2.2.1, h.2.2.2⟩

/-- Claim C4 counterexample: two visible activities (cmids 1 and 2)
both render the column name "Quiz: A".  Activity 1 is absent from the
user's per-activity completion map, yet the per-course row's cell for
its column holds "Completed" (activity 2's status, written later into
the same dict key), not "Incomplete" — the later same-named column
overwrites the earlier one's "Incomplete". -/
theorem C4_counterexample :
    get_course_activities envDupCols.contents
        = .ok [(1, ⟨"A", "quiz"⟩), (2, ⟨"A", "quiz"⟩)]
    ∧ activity_columns_of [(1, ⟨"A", "quiz"⟩), (2, ⟨"A", "quiz"⟩)]
        = [(1, "Quiz: A"), (2, "Quiz: A")]
    ∧ amapFind (get_activity_completion (envDupCols.activityCall 7)) (.num 1)
        = none
    ∧ rowGet ((((process_one_course demoCourse envDupCols).1.toOption.map
          (fun r => r.per_course_rows)).getD []).headD []) "Quiz: A"
        = some (.str "Completed") :=
  ⟨rfl, rfl, rfl, rfl⟩

/-- Claim C4 (amended): for every user and every activity column whose
id is absent from the user's per-activity completion mapping, the
per-course row assigns "Incomplete" to that activity's column,
PROVIDED no later activity column of the course shares the same column
name (a later same-named column overwrites the cell with its own
status); in every case the cell of each activity column is present and
holds one of "Completed", "Failed", "Incomplete" — never missing or
blank. -/
theorem C4_missing_activity_defaults_incomplete (c : Course)
    (env : CourseEnv) (u : User) (cols l1 l2 : List (Int × String))
    (cmid : Int) (colname : String) :
    (cols = l1 ++ (cmid, colname) :: l2 →
      colname ∉ l2.map Prod.snd →
      amapFind (get_activity_completion (env.activityCall u.id)) (.num cmid)
          = none →
      rowGet (user_rows c env cols u).1 colname = some (.str "Incomplete"))
    ∧ (∀ cm col, (cm, col) ∈ cols →
        ∃ v, rowGet (user_rows c env cols u).1 col = some (.str v)
          ∧ (v = "Completed" ∨ v = "Failed" ∨ v = "Incomplete")) := by
  constructor
  · intro hsplit hnot hnone
    rw [user_rows_fst, course_row_eq, hsplit]
    rw [rowGet_actfold_split _ l1 l2 cmid colname _ hnot]
    simp [amapGet, hnone]
  · intro cm col hmem
    have hcol : col ∈ cols.map Prod.snd :=
      List.mem_map.mpr ⟨(cm, col), hmem, rfl⟩
    obtain ⟨l1, cmid2, l2, hEq, hNot⟩ := exists_last_col_split cols col hcol
    refine ⟨amapGet (get_activity_completion (env.activityCall u.id))
      (.num cmid2) "Incomplete", ?_, ?_⟩
    · rw [user_rows_fst, course_row_eq, hEq]
      exact rowGet_actfold_split _ l1 l2 cmid2 col _ hNot
    · exact amapGet_label _ _ (get_activity_completion_values _)

/-- Claim C4 witness: with a single activity column and a failed
per-activity call (empty mapping), the row's cell for that column is
"Incomplete". -/
theorem C4_witness :
    rowGet (user_rows demoCourse envOneQuiz [(1, "Quiz: Acids")] demoUser).1
        "Quiz: Acids"
      = some (.str "Incomplete") :=
  (C4_missing_activity_defaults_incomplete demoCourse envOneQuiz demoUser
      [(1, "Quiz: Acids")] [] [] 1 "Quiz: Acids").1 rfl (by simp) rfl

end MoodleReport
